import Mathlib

/-!
Verification of the emlak-web video pipeline specification.

This file gives a shallow embedding of the parts of the repository that the
frozen claims are about:

* `modules/video/video_generation.py` — `create_frame_effect`,
  `apply_cinematic_effects` / `apply_vintage_effect`,
  `optimize_image_for_video`, `generate_video_with_ffmpeg`;
* `utils/background_tasks.py` — `BackgroundTaskManager._run_task` and the
  per-task thread creation in `start_task`;
* `old_streamlit/utils/background_tasks.py` — the `ThreadPoolExecutor`
  pool of one worker and the watchdog `timeout_handler`;
* `old_streamlit/modules/video/advanced_stabilization.py` —
  `stabilize_video_sequence` and `smooth_trajectory`.

Modelling conventions: rasters carry their dimensions plus a pixel function;
the pixel-level content of OpenCV primitives (resize, blur, warp, colour-space
conversion) is abstracted into oracle parameters gathered in environment
structures, while every piece of control flow, every dimension computation and
every index/bound computation is translated directly from the Python source.
Python floats are modelled as real numbers, `int(x)` for `x ≥ 0` as the floor,
and Python's floor division `//` on integers as `Int.fdiv`.
-/

/-- A pixel: three 8-bit colour channels (values in `0..255`). -/
def Pixel : Type := Nat × Nat × Nat

instance : DecidableEq Pixel := by unfold Pixel; infer_instance

/-- A decoded raster: `h` rows, `w` columns, and a pixel function.
Mirrors a `h×w×3` numpy image array. -/
structure Raster where
  h : Nat
  w : Nat
  px : Nat → Nat → Pixel

/-! ## Quality resolution (`generate_video_with_ffmpeg`, lines 394-400)

```python
if quality == "high":
    target_size = (1920, 1080)
    bitrate = "4000k"
else:
    target_size = (1280, 720)
    bitrate = "2000k"
``` -/

/-- Target `(width, height)` and bitrate resolved from the quality flag. -/
def resolveQuality (quality : String) : (Nat × Nat) × String :=
  if quality = "high" then ((1920, 1080), "4000k") else ((1280, 720), "2000k")

/-! ## Video assembly (`generate_video_with_ffmpeg`, lines 361-507)

The moviepy `write_videofile` calls and the filesystem are abstracted into an
environment: `fileExists` models `os.path.exists`, and `writeError c` is
`some msg` exactly when the `write_videofile` call described by `c` raises an
exception with message `msg` (`none` when it succeeds). -/

/-- The parameters of one `clip.write_videofile(...)` call. -/
structure WriteCall where
  path : String
  audio_codec : Option String
  bitrate : String
  fps : Nat
  threads : Nat
deriving DecidableEq

/-- Environment for `generate_video_with_ffmpeg`: the filesystem and the
outcome of each attempted encoder write. -/
structure FfmpegEnv where
  fileExists : String → Bool
  writeError : WriteCall → Option String

/-- Path of the silent clip (`os.path.join(temp_dir, "silent.mp4")`). -/
def silentPath : String := "silent.mp4"

/-- Path of the final clip (`os.path.join(temp_dir, "final_video.mp4")`). -/
def finalPath : String := "final_video.mp4"

/-- `generate_video_with_ffmpeg`: returns the result (`ok` output path, or
`error` when an exception propagates) together with the ordered trace of
`write_videofile` calls that were attempted.

Translated control flow: resolve quality; if the audio file does not exist,
write a silent clip (codec `libx264`, `audio_codec=None`, current bitrate,
requested fps, 2 threads) and return its path — this write is *not* guarded
by a `try`. Otherwise attach the audio and try the primary write; on an
exception retry once with `bitrate="1000k"`, `fps=24`, `threads=1`; if the
retry also fails, re-raise the second error. -/
def generate_video_with_ffmpeg (env : FfmpegEnv) (audio_path : String)
    (fps : Nat) (quality : String) : Except String String × List WriteCall :=
  let bitrate := (resolveQuality quality).2
  if ¬ env.fileExists audio_path then
    let call : WriteCall := ⟨silentPath, none, bitrate, fps, 2⟩
    match env.writeError call with
    | none => (.ok silentPath, [call])
    | some e => (.error e, [call])
  else
    let primary : WriteCall := ⟨finalPath, some "aac", bitrate, fps, 2⟩
    match env.writeError primary with
    | none => (.ok finalPath, [primary])
    | some _ =>
      let retry : WriteCall := ⟨finalPath, some "aac", "1000k", 24, 1⟩
      match env.writeError retry with
      | none => (.ok finalPath, [primary, retry])
      | some e2 => (.error e2, [primary, retry])

/-! ## Background task record (`utils/background_tasks.py`)

`start_task` initialises the record (lines 34-44); `_run_task` (lines 56-82)
marks it `running`, calls the task function, and on return marks it
`completed` storing the returned value in `result`, or on an exception marks
it `failed` storing `str(e)` in `error`.

A Python task function can raise (modelled as `Except.error msg`) or return a
value, which may itself be `None` (modelled as `Except.ok none`). The record
fields `result` and `error` are Python values initialised to `None`, modelled
as `Option`s with `none` standing for Python `None`. -/

/-- One entry of the global `_task_status` dictionary. -/
structure TaskRecord where
  status : String
  progress : Nat
  result : Option String
  error : Option String
  message : String
deriving DecidableEq

/-- The record as initialised by `start_task` (lines 34-44). -/
def initTask : TaskRecord :=
  { status := "starting", progress := 0, result := none, error := none,
    message := "Görev başlatılıyor..." }

/-- `BackgroundTaskManager._run_task` as a transformer of the task record.
`func` is the outcome of `func(*args, **kwargs, task_id=task_id)`. -/
def run_task (func : Except String (Option String)) (t : TaskRecord) : TaskRecord :=
  let t1 := { t with status := "running", progress := 5,
                     message := "Görev çalışıyor..." }
  match func with
  | .ok r =>
      { t1 with status := "completed", result := r, progress := 100,
                message := "Görev tamamlandı!" }
  | .error e =>
      { t1 with status := "failed", error := some e,
                message := "Hata: " ++ e }

/-- The "exactly one of `result` and `error` is non-null" property claimed by
the specification for terminal task records. -/
def exactlyOneOutcome (t : TaskRecord) : Prop :=
  (t.result ≠ none ∧ t.error = none) ∨ (t.result = none ∧ t.error ≠ none)

instance (t : TaskRecord) : Decidable (exactlyOneOutcome t) := by
  unfold exactlyOneOutcome; infer_instance

/-! ## Watchdog timeout (`old_streamlit/utils/background_tasks.py`, 61-76)

```python
def timeout_handler():
    time.sleep(timeout)
    if not future.done():
        with self._lock:
            if task_id in self.tasks and self.tasks[task_id]["status"] == "running":
                self.tasks[task_id]["status"] = "failed"
                self.tasks[task_id]["error"] = "İşlem zaman aşımına uğradı"
                self.tasks[task_id]["message"] = "Zaman aşımı hatası!"
        future.cancel()
```

The handler runs once the timeout window has elapsed. `futureDone` is the
value of `future.done()` at that moment, and the task record is `none` when
`task_id` is no longer in the table. The handler also cancels the future
(dropping a still-queued job), which does not touch the record. -/

/-- One entry of the old manager's `self.tasks` table, as the watchdog reads
it. -/
structure WatchTask where
  status : String
  error : Option String
  message : String
deriving DecidableEq

/-- The update the watchdog `timeout_handler` applies to the task record once
the timeout window elapses. -/
def timeout_handler_update (futureDone : Bool) (t : Option WatchTask) :
    Option WatchTask :=
  if ¬ futureDone then
    match t with
    | some rec =>
        if rec.status = "running" then
          some { rec with status := "failed",
                          error := some "İşlem zaman aşımına uğradı",
                          message := "Zaman aşımı hatası!" }
        else some rec
    | none => none
  else t

/-- A job is in a terminal state of the old manager's state machine. -/
def WatchTask.terminal (t : WatchTask) : Prop :=
  t.status = "completed" ∨ t.status = "failed" ∨ t.status = "canceled"

instance (t : WatchTask) : Decidable t.terminal := by
  unfold WatchTask.terminal; infer_instance

/-- Claim C2: once `_run_task` finishes, the record never holds both a result
and an error; a `failed` record carries exactly the exception message with a
null result, and a `completed` record carries exactly the function's return
value with a null error. The "exactly one non-null" form of the claim fails
only because the function may legitimately return `None` (see the
counterexample). -/
theorem run_task_terminal_outcome (func : Except String (Option String)) :
    ((run_task func initTask).result = none ∨ (run_task func initTask).error = none)
    ∧ (∀ v, func = .ok v →
        (run_task func initTask).status = "completed"
        ∧ (run_task func initTask).result = v
        ∧ (run_task func initTask).error = none)
    ∧ (∀ e, func = .error e →
        (run_task func initTask).status = "failed"
        ∧ (run_task func initTask).error = some e
        ∧ (run_task func initTask).result = none) := by
  refine ⟨?_, ?_, ?_⟩
  · cases func <;> simp [run_task, initTask]
  · rintro v rfl; simp [run_task, initTask]
  · rintro e rfl; simp [run_task, initTask]

/-- Witness for C2: concrete instances of both outcomes. -/
theorem run_task_terminal_outcome_witness :
    ((run_task (.ok (some "video.mp4")) initTask).status = "completed"
      ∧ (run_task (.ok (some "video.mp4")) initTask).result = some "video.mp4"
      ∧ (run_task (.ok (some "video.mp4")) initTask).error = none)
    ∧ ((run_task (.error "boom") initTask).status = "failed"
      ∧ (run_task (.error "boom") initTask).error = some "boom"
      ∧ (run_task (.error "boom") initTask).result = none) :=
  ⟨(run_task_terminal_outcome (.ok (some "video.mp4"))).2.1 (some "video.mp4") rfl,
   (run_task_terminal_outcome (.error "boom")).2.2 "boom" rfl⟩

/-- Counterexample to C2 as stated: a task function that returns `None`
(Python's default return value — the repository's own `generate_video` has no
`return` statement) completes with `result = None` and `error = None`, so
*neither* field is non-null, refuting "exactly one of `result` and `error` is
non-null". -/
theorem run_task_none_result_counterexample :
    (run_task (.ok none) initTask).status = "completed"
    ∧ ¬ exactlyOneOutcome (run_task (.ok none) initTask) := by
  decide

/-- Claim C4: quality `"high"` resolves to 1920×1080 at `"4000k"`, and every
other quality value resolves to 1280×720 at `"2000k"`. -/
theorem resolveQuality_spec :
    resolveQuality "high" = ((1920, 1080), "4000k")
    ∧ ∀ q : String, q ≠ "high" → resolveQuality q = ((1280, 720), "2000k") := by
  refine ⟨rfl, fun q hq => ?_⟩
  simp [resolveQuality, hq]

/-- Witness for C4 at the two quality flags the UI uses. -/
theorem resolveQuality_spec_witness :
    resolveQuality "high" = ((1920, 1080), "4000k")
    ∧ resolveQuality "normal" = ((1280, 720), "2000k") :=
  ⟨resolveQuality_spec.1, resolveQuality_spec.2 "normal" (by decide)⟩

/-- Claim C3: when the narration audio path does not name an existing file,
`generate_video_with_ffmpeg` takes the silent-clip branch: it performs exactly
one encoder write (silent, no audio codec, at the resolved bitrate) and
returns the silent clip's path, never reaching the audio-muxing path.
The only assumption is that the (unguarded) silent encoder write itself does
not raise. -/
theorem ffmpeg_missing_audio_silent (env : FfmpegEnv) (audio_path : String)
    (fps : Nat) (quality : String)
    (hmiss : env.fileExists audio_path = false)
    (hok : env.writeError ⟨silentPath, none, (resolveQuality quality).2, fps, 2⟩ = none) :
    (generate_video_with_ffmpeg env audio_path fps quality).1 = .ok silentPath
    ∧ (generate_video_with_ffmpeg env audio_path fps quality).2 =
        [⟨silentPath, none, (resolveQuality quality).2, fps, 2⟩] := by
  simp [generate_video_with_ffmpeg, hmiss, hok]

/-- Witness for C3 in an environment with no narration file and a working
encoder. -/
theorem ffmpeg_missing_audio_silent_witness :
    (generate_video_with_ffmpeg ⟨fun _ => false, fun _ => none⟩ "narration.mp3" 30 "normal").1
      = .ok silentPath :=
  (ffmpeg_missing_audio_silent ⟨fun _ => false, fun _ => none⟩ "narration.mp3" 30 "normal"
    rfl rfl).1

/-- Claim C5: when the narration file exists and the primary encoder write
raises, `generate_video_with_ffmpeg` makes exactly one further write attempt,
with bitrate `"1000k"`, 24 fps and one thread, and then: it succeeds with the
final path iff the retry succeeds, and propagates the retry's error when the
retry also fails. -/
theorem ffmpeg_primary_failure_retry (env : FfmpegEnv) (audio_path : String)
    (fps : Nat) (quality : String) (e : String)
    (hexist : env.fileExists audio_path = true)
    (hfail : env.writeError ⟨finalPath, some "aac", (resolveQuality quality).2, fps, 2⟩ = some e) :
    (generate_video_with_ffmpeg env audio_path fps quality).2 =
      [⟨finalPath, some "aac", (resolveQuality quality).2, fps, 2⟩,
       ⟨finalPath, some "aac", "1000k", 24, 1⟩]
    ∧ (env.writeError ⟨finalPath, some "aac", "1000k", 24, 1⟩ = none →
        (generate_video_with_ffmpeg env audio_path fps quality).1 = .ok finalPath)
    ∧ (∀ e2, env.writeError ⟨finalPath, some "aac", "1000k", 24, 1⟩ = some e2 →
        (generate_video_with_ffmpeg env audio_path fps quality).1 = .error e2) := by
  refine ⟨?_, ?_, ?_⟩
  · simp only [generate_video_with_ffmpeg, hexist]
    simp [hfail]
    cases h2 : env.writeError ⟨finalPath, some "aac", "1000k", 24, 1⟩ <;> simp [h2]
  · intro h2
    simp only [generate_video_with_ffmpeg, hexist]
    simp [hfail, h2]
  · intro e2 h2
    simp only [generate_video_with_ffmpeg, hexist]
    simp [hfail, h2]

/-- Witness for C5: a concrete environment where the primary write raises and
the retry succeeds, and one where both writes raise. -/
theorem ffmpeg_primary_failure_retry_witness :
    ((generate_video_with_ffmpeg
        ⟨fun _ => true, fun c => if c.bitrate = "1000k" then none else some "codec error"⟩
        "narration.mp3" 30 "normal").1 = .ok finalPath)
    ∧ ((generate_video_with_ffmpeg
        ⟨fun _ => true, fun c => if c.bitrate = "1000k" then some "disk full" else some "codec error"⟩
        "narration.mp3" 30 "normal").1 = .error "disk full") :=
  ⟨(ffmpeg_primary_failure_retry
      ⟨fun _ => true, fun c => if c.bitrate = "1000k" then none else some "codec error"⟩
      "narration.mp3" 30 "normal" "codec error" rfl (by decide)).2.1 (by decide),
   (ffmpeg_primary_failure_retry
      ⟨fun _ => true, fun c => if c.bitrate = "1000k" then some "disk full" else some "codec error"⟩
      "narration.mp3" 30 "normal" "codec error" rfl (by decide)).2.2 "disk full" (by decide)⟩

/-- Claim C9 (amended): when the timeout window elapses with the future not
yet done, the watchdog marks the job failed with the timeout error message —
but only if the job's status is `"running"` at that moment; the guard
`self.tasks[task_id]["status"] == "running"` leaves any other non-terminal
status (in particular a still-queued `"starting"` job) untouched. -/
theorem timeout_handler_marks_running_failed (t : WatchTask)
    (hrun : t.status = "running") :
    timeout_handler_update false (some t) =
      some { t with status := "failed",
                    error := some "İşlem zaman aşımına uğradı",
                    message := "Zaman aşımı hatası!" } := by
  simp [timeout_handler_update, hrun]

/-- Witness for C9: a concrete running job is marked failed with the timeout
error at expiry. -/
theorem timeout_handler_marks_running_failed_witness :
    timeout_handler_update false
        (some ⟨"running", none, "İşlem çalışıyor..."⟩) =
      some ⟨"failed", some "İşlem zaman aşımına uğradı", "Zaman aşımı hatası!"⟩ :=
  timeout_handler_marks_running_failed ⟨"running", none, "İşlem çalışıyor..."⟩ rfl

/-- Counterexample to C9 as stated: a job still queued behind the single
worker has status `"starting"` — not a terminal state — when its timeout
elapses, yet the watchdog leaves the record unchanged (it only cancels the
queued future), so the job is never marked failed. -/
theorem timeout_handler_starting_counterexample :
    ¬ (WatchTask.terminal ⟨"starting", none, "İşlem başlatılıyor..."⟩)
    ∧ timeout_handler_update false (some ⟨"starting", none, "İşlem başlatılıyor..."⟩)
        = some ⟨"starting", none, "İşlem başlatılıyor..."⟩
    ∧ ("starting" : String) ≠ "failed" := by
  decide

/-! ## Job scheduling (claim C8)

Two managers exist. `old_streamlit/utils/background_tasks.py` line 26 creates
`ThreadPoolExecutor(max_workers=1)` and submits every job to it, so jobs run
one at a time in submission order. `utils/background_tasks.py` lines 46-52
instead create and start a fresh `threading.Thread` for every call to
`start_task`, with no pool and no queue.

Both are modelled as transition systems over the same state: the lists of
currently-executing jobs, queued jobs, all submitted jobs (in submission
order) and jobs that have begun executing (in the order they began). -/

/-- Scheduler state shared by both manager models. -/
structure SchedState where
  active : List Nat
  queued : List Nat
  submitted : List Nat
  started : List Nat
deriving DecidableEq

/-- The empty scheduler state. -/
def initSched : SchedState := ⟨[], [], [], []⟩

/-- Scheduler events: a job submission or the completion of an active job. -/
inductive SchedEv where
  | submit (t : Nat)
  | finish (t : Nat)
deriving DecidableEq

/-- One step of a `ThreadPoolExecutor(max_workers=maxWorkers)`: a submitted
job starts immediately when a worker is free and queues otherwise; when a job
finishes, the worker pulls the head of the queue. -/
def poolStep (maxWorkers : Nat) (s : SchedState) (e : SchedEv) : SchedState :=
  match e with
  | .submit t =>
      if s.active.length < maxWorkers then
        { active := s.active ++ [t], queued := s.queued,
          submitted := s.submitted ++ [t], started := s.started ++ [t] }
      else
        { s with queued := s.queued ++ [t], submitted := s.submitted ++ [t] }
  | .finish t =>
      if t ∈ s.active then
        match s.queued with
        | [] => { s with active := s.active.erase t }
        | q :: qs =>
            { active := s.active.erase t ++ [q], queued := qs,
              submitted := s.submitted, started := s.started ++ [q] }
      else s

/-- The old manager: run a trace of events through the pool of one worker. -/
def poolRun (maxWorkers : Nat) (evs : List SchedEv) : SchedState :=
  evs.foldl (poolStep maxWorkers) initSched

/-- One step of the new manager (`utils/background_tasks.py`): `start_task`
creates and starts a dedicated thread for the job at once, so every submitted
job becomes active immediately; nothing ever queues. -/
def threadStep (s : SchedState) (e : SchedEv) : SchedState :=
  match e with
  | .submit t =>
      { active := s.active ++ [t], queued := s.queued,
        submitted := s.submitted ++ [t], started := s.started ++ [t] }
  | .finish t => { s with active := s.active.erase t }

/-- The new manager: run a trace of events, one thread per task. -/
def threadRun (evs : List SchedEv) : SchedState :=
  evs.foldl threadStep initSched

/-- The inductive invariant of the one-worker pool: at most one job is
active, jobs start in exactly submission order, and the queue is nonempty
only while the worker is busy. -/
def poolInv (s : SchedState) : Prop :=
  s.active.length ≤ 1
  ∧ s.started ++ s.queued = s.submitted
  ∧ (s.queued = [] ∨ s.active.length = 1)

theorem poolStep_inv {s : SchedState} (e : SchedEv) (hs : poolInv s) :
    poolInv (poolStep 1 s e) := by
  obtain ⟨hlen, hfifo, hq⟩ := hs
  cases e with
  | submit t =>
      by_cases hfree : s.active.length < 1
      · have hact : s.active = [] := List.length_eq_zero.mp (Nat.lt_one_iff.mp hfree)
        have hqe : s.queued = [] := by
          rcases hq with h | h
          · exact h
          · rw [hact] at h; simp at h
        refine ⟨?_, ?_, ?_⟩
        · simp [poolStep, hfree, hact]
        · simp [poolStep, hfree, hqe, ← hfifo, hqe]
        · simp [poolStep, hfree, hqe]
      · refine ⟨?_, ?_, ?_⟩
        · simpa [poolStep, hfree] using hlen
        · simp [poolStep, hfree, ← hfifo]
        · have h1 : s.active.length = 1 := le_antisymm hlen (Nat.le_of_not_lt hfree)
          simp [poolStep, hfree, h1]
  | finish t =>
      by_cases hmem : t ∈ s.active
      · have h1 : s.active.length = 1 := by
          have := List.length_pos.mpr (List.ne_nil_of_mem hmem)
          omega
        obtain ⟨a, ha⟩ : ∃ a, s.active = [a] := List.length_eq_one.mp h1
        have hta : t = a := by
          rw [ha] at hmem; simpa using hmem
        cases hqs : s.queued with
        | nil =>
            refine ⟨?_, ?_, ?_⟩
            · simp [poolStep, hmem, hqs, ha, hta]
            · have h2 := hqs ▸ hfifo
              simpa [poolStep, hmem, hqs] using h2
            · simp [poolStep, hmem, hqs]
        | cons q qs =>
            refine ⟨?_, ?_, ?_⟩
            · simp [poolStep, hmem, hqs, ha, hta]
            · have : s.started ++ (q :: qs) = s.submitted := hqs ▸ hfifo
              simp [poolStep, hmem, hqs, ← this]
            · simp [poolStep, hmem, hqs, ha, hta]
      · simpa [poolStep, hmem] using ⟨hlen, hfifo, hq⟩

theorem poolRun_inv (evs : List SchedEv) : poolInv (poolRun 1 evs) := by
  suffices h : ∀ s, poolInv s → poolInv (evs.foldl (poolStep 1) s) by
    exact h initSched (by constructor <;> simp [initSched])
  induction evs with
  | nil => intro s hs; exact hs
  | cons e evs ih => intro s hs; exact ih _ (poolStep_inv e hs)

/-- Claim C8 (amended): in the old manager's one-worker pool
(`ThreadPoolExecutor(max_workers=1)`), after any trace of submissions and
completions at most one job is executing, and the jobs that have begun
executing are exactly an initial segment — in order — of the submitted jobs
(FIFO). The `utils/background_tasks.py` manager does not have this property
(see the counterexample). -/
theorem pool_serializes_fifo (evs : List SchedEv) :
    (poolRun 1 evs).active.length ≤ 1
    ∧ (poolRun 1 evs).started =
        (poolRun 1 evs).submitted.take (poolRun 1 evs).started.length := by
  obtain ⟨hlen, hfifo, -⟩ := poolRun_inv evs
  exact ⟨hlen, by rw [← hfifo, List.take_left]⟩

/-- Counterexample to C8 as stated for the current manager
(`utils/background_tasks.py`): `start_task` starts a dedicated thread per
job, so after two submissions with neither job finished, two worker threads
are executing concurrently and nothing is queued. -/
theorem thread_per_task_counterexample :
    (threadRun [.submit 0, .submit 1]).active = [0, 1]
    ∧ ¬ (threadRun [.submit 0, .submit 1]).active.length ≤ 1
    ∧ (threadRun [.submit 0, .submit 1]).queued = [] := by
  decide

/-! ## Cinematic colour grading (`video_generation.py`, lines 127-275, C7)

The per-pixel numerics of the LAB conversions, the S-curve grade and the
vignette are floating-point OpenCV code and are abstracted into oracle pixel
functions in `GradeEnv`; the saturating `cv2.add` of the film grain is
modelled exactly. What matters for claim C7 is the data flow: `warm`, `cool`
and the default `cinematic` grade read nothing but the input frame, while
`apply_vintage_effect` calls `np.random.normal(0, 5, image.shape)` — a fresh
draw from the global numpy RNG on every call. The RNG is modelled as a draw
counter `rng : Nat` plus a stream `noise : Nat → Nat → Nat → Pixel` giving
the grain pixel of draw `k` at position `(y, x)`; each vintage call consumes
one draw. -/

/-- `cv2.add` on `uint8`: per-channel saturating addition. -/
def pixAdd (p q : Pixel) : Pixel :=
  (min (p.1 + q.1) 255, min (p.2.1 + q.2.1) 255, min (p.2.2 + q.2.2) 255)

/-- Oracle pixel functions for the grading primitives. -/
structure GradeEnv where
  /-- LAB round-trip with the `a`/`b` channels shifted by the two offsets
  (`a+10, b+15` for warm; `a-10, b-10` for cool). -/
  labShiftPx : Raster → Int → Int → (Nat → Nat → Pixel)
  /-- `apply_cinematic_grade`: shadow lift, S-curve, saturation boost. -/
  cinePx : Raster → (Nat → Nat → Pixel)
  /-- `cv2.transform` with the sepia matrix. -/
  sepiaPx : Raster → (Nat → Nat → Pixel)
  /-- `apply_vignette` at the given intensity. -/
  vignettePx : Raster → ℚ → (Nat → Nat → Pixel)
  /-- Grain pixel of the `k`-th `np.random.normal` draw at `(y, x)`. -/
  noise : Nat → Nat → Nat → Pixel

/-- The "warm" branch: LAB shift `a+10, b+15` then vignette `0.3`. -/
def apply_warm (env : GradeEnv) (frame : Raster) : Raster :=
  ⟨frame.h, frame.w,
    env.vignettePx ⟨frame.h, frame.w, env.labShiftPx frame 10 15⟩ (3 / 10)⟩

/-- The "cool" branch: LAB shift `a-10, b-10`, no vignette. -/
def apply_cool (env : GradeEnv) (frame : Raster) : Raster :=
  ⟨frame.h, frame.w, env.labShiftPx frame (-10) (-10)⟩

/-- `apply_cinematic_grade` (default branch). -/
def apply_cinematic_grade (env : GradeEnv) (frame : Raster) : Raster :=
  ⟨frame.h, frame.w, env.cinePx frame⟩

/-- `apply_vintage_effect`: sepia transform, fresh random film grain added
with saturating `cv2.add`, then vignette `0.4`. Returns the graded frame and
the advanced RNG counter. -/
def apply_vintage_effect (env : GradeEnv) (frame : Raster) (rng : Nat) :
    Raster × Nat :=
  let sepia_img : Raster := ⟨frame.h, frame.w, env.sepiaPx frame⟩
  let vintage : Raster :=
    ⟨frame.h, frame.w, fun y x => pixAdd (sepia_img.px y x) (env.noise rng y x)⟩
  (⟨frame.h, frame.w, env.vignettePx vintage (4 / 10)⟩, rng + 1)

/-- The per-frame dispatch inside the `apply_cinematic_effects` loop. -/
def applyOneEffect (env : GradeEnv) (effect_type : String) (frame : Raster)
    (rng : Nat) : Raster × Nat :=
  if effect_type = "warm" then (apply_warm env frame, rng)
  else if effect_type = "cool" then (apply_cool env frame, rng)
  else if effect_type = "vintage" then apply_vintage_effect env frame rng
  else (apply_cinematic_grade env frame, rng)

/-- `apply_cinematic_effects`: grade each frame in order, threading the
global RNG state through the vintage branch. -/
def apply_cinematic_effects (env : GradeEnv) (frames : List Raster)
    (effect_type : String) (rng : Nat) : List Raster × Nat :=
  match frames with
  | [] => ([], rng)
  | f :: fs =>
      let g := applyOneEffect env effect_type f rng
      let rest := apply_cinematic_effects env fs effect_type g.2
      (g.1 :: rest.1, rest.2)

/-- Claim C7 (amended): the `cinematic`, `warm` and `cool` transforms are
pure frame-to-frame functions with no shared state: they neither read nor
advance the RNG, so two applications to the same input frame — under any RNG
states — yield identical output frames. The `vintage` transform is excluded:
it draws fresh film grain from the global RNG on every call (see the
counterexample). -/
theorem grading_pure_of_not_vintage (env : GradeEnv) (effect_type : String)
    (frame : Raster) (rng rng' : Nat) (hv : effect_type ≠ "vintage") :
    (apply_cinematic_effects env [frame] effect_type rng).1 =
      (apply_cinematic_effects env [frame] effect_type rng').1
    ∧ (apply_cinematic_effects env [frame] effect_type rng).2 = rng := by
  by_cases hw : effect_type = "warm"
  · simp [apply_cinematic_effects, applyOneEffect, hw]
  · by_cases hc : effect_type = "cool"
    · simp [apply_cinematic_effects, applyOneEffect, hw, hc]
    · simp [apply_cinematic_effects, applyOneEffect, hw, hc, hv]

/-- A 1×1 black test frame. -/
def blackFrame : Raster := ⟨1, 1, fun _ _ => (0, 0, 0)⟩

/-- A concrete grading environment: the abstracted float primitives are
instantiated with pass-through pixel functions and the RNG stream returns the
draw counter in the red channel, so consecutive draws differ. -/
def demoGradeEnv : GradeEnv :=
  { labShiftPx := fun r _ _ => r.px
    cinePx := fun r => r.px
    sepiaPx := fun r => r.px
    vignettePx := fun r _ => r.px
    noise := fun k _ _ => (min k 255, 0, 0) }

/-- Witness for C7: the warm grade applied under two different RNG states
yields the same frame and leaves the state untouched. -/
theorem grading_pure_of_not_vintage_witness :
    (apply_cinematic_effects demoGradeEnv [blackFrame] "warm" 0).1 =
      (apply_cinematic_effects demoGradeEnv [blackFrame] "warm" 7).1
    ∧ (apply_cinematic_effects demoGradeEnv [blackFrame] "warm" 0).2 = 0 :=
  grading_pure_of_not_vintage demoGradeEnv "warm" blackFrame 0 7 (by decide)

/-- Counterexample to C7 as stated: two successive applications of the
`vintage` transform to the same input frame produce different output frames,
because the second call draws different film grain from the advanced global
RNG. -/
theorem vintage_not_pure_counterexample :
    (apply_cinematic_effects demoGradeEnv [blackFrame] "vintage" 0).1 ≠
      (apply_cinematic_effects demoGradeEnv [blackFrame] "vintage"
        (apply_cinematic_effects demoGradeEnv [blackFrame] "vintage" 0).2).1 := by
  intro h
  have hpx := congrArg (fun L => (L.headD blackFrame).px 0 0) h
  simp [apply_cinematic_effects, applyOneEffect, apply_vintage_effect,
    demoGradeEnv, blackFrame, pixAdd] at hpx
  exact absurd hpx (by decide)

/-! ## Image optimization (`video_generation.py`, lines 277-325, C10)

`optimize_image_for_video` accepts a PIL image or a numpy array. The PIL
branch resizes to the target, converts to RGB and then to BGR — always a
`target_height × target_width × 3` array. The numpy branch calls
`cv2.resize(image, (target_width, target_height))`, then converts 4-channel
input to BGR and 2-D input to 3-channel BGR; any *other* channel count
passes through unconverted. Any exception is caught and replaced by a gray
128 placeholder with the "Image Error" caption.

Shape semantics of `cv2.resize`: a 2-D `[h, w]` array resizes to `[th, tw]`;
a 3-D `[h, w, c]` array resizes to `[th, tw, c]` (OpenCV squeezes a trailing
`c = 1` to 2-D); arrays of any other rank raise. The environment can also
inject a failure for any call (degenerate sizes, unsupported dtypes), and
carries oracle content functions for the conversions. -/

/-- A numpy array: its shape and a flat content oracle. -/
structure NdArray where
  shape : List Nat
  data : List Nat → Nat

/-- A PIL image is a raster; the argument of `optimize_image_for_video` is
either kind. -/
inductive PyImage where
  | pil (im : Raster)
  | arr (nd : NdArray)

/-- Oracles for the image-optimization primitives: injected failures and the
pixel content of each conversion. -/
structure ImgEnv where
  /-- Failure of the PIL resize/convert pipeline, if any. -/
  pilFail : Raster → Nat → Nat → Option String
  /-- Content of the PIL resize → RGB → numpy → BGR pipeline. -/
  pilPx : Raster → Nat → Nat → (List Nat → Nat)
  /-- Injected failure of `cv2.resize`, if any. -/
  resizeFail : NdArray → Nat → Nat → Option String
  /-- Content of `cv2.resize`. -/
  resizePx : NdArray → Nat → Nat → (List Nat → Nat)
  /-- Content of `cv2.cvtColor` for the named conversion. -/
  cvtPx : NdArray → String → (List Nat → Nat)
  /-- Content of `cv2.putText` drawing the "Image Error" caption. -/
  putTextPx : NdArray → String → (List Nat → Nat)

/-- `cv2.resize(nd, (tw, th))` with the shape semantics described above. -/
def cvResizeNd (env : ImgEnv) (nd : NdArray) (tw th : Nat) :
    Except String NdArray :=
  match env.resizeFail nd tw th with
  | some e => .error e
  | none =>
      match nd.shape with
      | [_, _] => .ok ⟨[th, tw], env.resizePx nd tw th⟩
      | [_, _, c] =>
          if c = 1 then .ok ⟨[th, tw], env.resizePx nd tw th⟩
          else .ok ⟨[th, tw, c], env.resizePx nd tw th⟩
      | _ => .error "resize: unsupported array rank"

/-- `optimize_image_for_video`: the whole body runs inside `try`; any error
falls back to the gray "Image Error" placeholder of the target size. -/
def optimize_image_for_video (env : ImgEnv) (image : PyImage)
    (target_width target_height : Nat) : NdArray :=
  let computed : Except String NdArray :=
    match image with
    | .pil im =>
        match env.pilFail im target_width target_height with
        | some e => .error e
        | none =>
            .ok ⟨[target_height, target_width, 3],
                 env.pilPx im target_width target_height⟩
    | .arr nd =>
        match cvResizeNd env nd target_width target_height with
        | .error e => .error e
        | .ok r =>
            match r.shape with
            | [h, w, c] =>
                if c = 4 then .ok ⟨[h, w, 3], env.cvtPx r "RGBA2BGR"⟩
                else .ok r
            | [h, w] => .ok ⟨[h, w, 3], env.cvtPx r "GRAY2BGR"⟩
            | _ => .ok r
  match computed with
  | .ok out => out
  | .error _ =>
      let blank : NdArray := ⟨[target_height, target_width, 3], fun _ => 128⟩
      ⟨[target_height, target_width, 3], env.putTextPx blank "Image Error"⟩

/-- Claim C10 (amended): `optimize_image_for_video` never raises — every
failure yields the gray "Image Error" placeholder — and the output's first
two dimensions always equal the requested target height and width. The
output is moreover 3-channel for every PIL input, every 2-D array input and
every 3-D array input with 1, 3 or 4 channels; a 3-D array with any other
channel count passes through with its channel count intact (see the
counterexample). -/
theorem optimize_image_shape (env : ImgEnv) (image : PyImage)
    (tw th : Nat) :
    (optimize_image_for_video env image tw th).shape.take 2 = [th, tw]
    ∧ (∀ im, image = .pil im →
        (optimize_image_for_video env image tw th).shape = [th, tw, 3])
    ∧ (∀ nd h w, image = .arr nd → nd.shape = [h, w] →
        (optimize_image_for_video env image tw th).shape = [th, tw, 3])
    ∧ (∀ nd h w c, image = .arr nd → nd.shape = [h, w, c] →
        (c = 1 ∨ c = 3 ∨ c = 4) →
        (optimize_image_for_video env image tw th).shape = [th, tw, 3]) := by
  refine ⟨?_, ?_, ?_, ?_⟩
  · cases image with
    | pil im =>
        cases hf : env.pilFail im tw th <;>
          simp [optimize_image_for_video, hf]
    | arr nd =>
        cases hf : env.resizeFail nd tw th with
        | some e => simp [optimize_image_for_video, cvResizeNd, hf]
        | none =>
            match hnd : nd.shape with
            | [] => simp [optimize_image_for_video, cvResizeNd, hf, hnd]
            | [a] => simp [optimize_image_for_video, cvResizeNd, hf, hnd]
            | [a, b] => simp [optimize_image_for_video, cvResizeNd, hf, hnd]
            | [a, b, c] =>
                by_cases hc1 : c = 1 <;> by_cases hc4 : c = 4 <;>
                  simp [optimize_image_for_video, cvResizeNd, hf, hnd, hc1, hc4]
            | a :: b :: c :: d :: rest =>
                simp [optimize_image_for_video, cvResizeNd, hf, hnd]
  · rintro im rfl
    cases hf : env.pilFail im tw th <;> simp [optimize_image_for_video, hf]
  · rintro nd h w rfl hs
    cases hf : env.resizeFail nd tw th with
    | some e => simp [optimize_image_for_video, cvResizeNd, hf]
    | none => simp [optimize_image_for_video, cvResizeNd, hf, hs]
  · rintro nd h w c rfl hs hc
    cases hf : env.resizeFail nd tw th with
    | some e => simp [optimize_image_for_video, cvResizeNd, hf]
    | none =>
        rcases hc with rfl | rfl | rfl <;>
          simp [optimize_image_for_video, cvResizeNd, hf, hs]

/-- A concrete, fully-succeeding image environment. -/
def demoImgEnv : ImgEnv :=
  { pilFail := fun _ _ _ => none
    pilPx := fun _ _ _ _ => 0
    resizeFail := fun _ _ _ => none
    resizePx := fun _ _ _ _ => 0
    cvtPx := fun _ _ _ => 0
    putTextPx := fun _ _ _ => 0 }

/-- A concrete failing image environment: every `cv2.resize` raises. -/
def failImgEnv : ImgEnv :=
  { demoImgEnv with resizeFail := fun _ _ _ => some "cv2.error" }

/-- Witness for C10: a PIL input, a grayscale 2-D array, an RGBA array and a
failing conversion all come out as 3-channel rasters of the 6×7 target. -/
theorem optimize_image_shape_witness :
    (optimize_image_for_video demoImgEnv (.pil blackFrame) 7 6).shape = [6, 7, 3]
    ∧ (optimize_image_for_video demoImgEnv (.arr ⟨[5, 5], fun _ => 0⟩) 7 6).shape = [6, 7, 3]
    ∧ (optimize_image_for_video demoImgEnv (.arr ⟨[5, 5, 4], fun _ => 0⟩) 7 6).shape = [6, 7, 3]
    ∧ (optimize_image_for_video failImgEnv (.arr ⟨[5, 5, 3], fun _ => 0⟩) 7 6).shape.take 2 = [6, 7] :=
  ⟨(optimize_image_shape demoImgEnv (.pil blackFrame) 7 6).2.1 blackFrame rfl,
   (optimize_image_shape demoImgEnv (.arr ⟨[5, 5], fun _ => 0⟩) 7 6).2.2.1
      ⟨[5, 5], fun _ => 0⟩ 5 5 rfl rfl,
   (optimize_image_shape demoImgEnv (.arr ⟨[5, 5, 4], fun _ => 0⟩) 7 6).2.2.2
      ⟨[5, 5, 4], fun _ => 0⟩ 5 5 4 rfl rfl (by decide),
   (optimize_image_shape failImgEnv (.arr ⟨[5, 5, 3], fun _ => 0⟩) 7 6).1⟩

/-- Counterexample to C10 as stated: a 2-channel numpy array (e.g. an
optical-flow field) resizes without error and matches neither the 4-channel
nor the 2-D conversion guard, so it passes through with 2 channels — the
output is not a 3-channel raster. -/
theorem optimize_image_two_channel_counterexample :
    (optimize_image_for_video demoImgEnv (.arr ⟨[5, 5, 2], fun _ => 0⟩) 7 6).shape
      = [6, 7, 2]
    ∧ ([6, 7, 2] : List Nat) ≠ [6, 7, 3] := by
  constructor
  · rfl
  · decide

/-! ## Full-sequence stabilization
(`old_streamlit/modules/video/advanced_stabilization.py`, C6)

`stabilize_video_sequence` returns its input for fewer than 3 frames or when
fewer than 10 corner features are found in the first frame; otherwise it
accumulates a per-frame-pair trajectory of `(dx, dy, da)` transforms,
smoothes it with a centred moving average (`smooth_trajectory`, translated
exactly over ℚ), and emits the first frame unchanged followed by each later
frame warped by the difference between the smoothed and raw trajectory.

The optical-flow / `estimateAffinePartial2D` estimation for the `i`-th frame
pair is an oracle `track i` with the source's three outcomes: a transform
`(dx, dy, da)`; too few matching points (the `continue`, leaving the
pre-allocated zero entry); or a `None` transform matrix (back-filling the
previous entry, zero at `i = 1`). The warp content is an oracle; its output
size is the first frame's `(w, h)` as in `cv2.warpAffine(..., (w, h))`. -/

/-- A trajectory entry `(dx, dy, da)`. -/
def V3 : Type := ℚ × ℚ × ℚ

/-- The zero trajectory entry (`np.zeros(3)`). -/
def v3zero : V3 := (0, 0, 0)

/-- Componentwise sum of trajectory entries. -/
def v3add (a b : V3) : V3 := (a.1 + b.1, a.2.1 + b.2.1, a.2.2 + b.2.2)

/-- Componentwise difference of trajectory entries (`smoothed - trajectory`). -/
def v3sub (a b : V3) : V3 := (a.1 - b.1, a.2.1 - b.2.1, a.2.2 - b.2.2)

/-- `np.mean(..., axis=0)` over a window of trajectory entries. -/
def meanV3 (xs : List V3) : V3 :=
  let s := xs.foldl v3add v3zero
  (s.1 / xs.length, s.2.1 / xs.length, s.2.2 / xs.length)

/-- Outcome of the flow-tracking and transform estimation for one frame
pair. -/
inductive TrackRes where
  | found (v : V3)
  | lost
  | noTransform

/-- Oracles for `stabilize_video_sequence`. -/
structure StabEnv where
  /-- Number of corners `cv2.goodFeaturesToTrack` finds in the first frame
  (`None` counted as 0). -/
  goodFeaturesCount : Raster → Nat
  /-- Tracking outcome for the `i`-th frame pair, `i ∈ [1, n-1]`. -/
  track : Nat → TrackRes
  /-- Content of `cv2.warpAffine` for the given trajectory difference. -/
  warpPx : Raster → V3 → Nat → Nat → (Nat → Nat → Pixel)

/-- The entry written to `trajectory[i-1]` in the estimation loop. -/
def trackEntry (track : Nat → TrackRes) (i : Nat) (prev : V3) : V3 :=
  match track i with
  | .found v => v
  | .lost => v3zero
  | .noTransform => if 1 < i then prev else v3zero

/-- The loop `for i in range(1, n_frames)` filling the trajectory, carrying
the previously written entry; `count` entries remain to produce. -/
def trajLoop (track : Nat → TrackRes) : Nat → V3 → Nat → List V3
  | _, _, 0 => []
  | i, prev, count + 1 =>
      let e := trackEntry track i prev
      e :: trajLoop track (i + 1) e count

/-- The full `n-1`-entry trajectory of an `n`-frame sequence. -/
def computeTrajectory (track : Nat → TrackRes) (n : Nat) : List V3 :=
  trajLoop track 1 v3zero (n - 1)

/-- `smooth_trajectory`: centred moving average over a window, translated
from the source (`start = max(0, i - window_size .. 2)` via ℕ subtraction). -/
def smooth_trajectory (trajectory : List V3) (window_size : Nat) : List V3 :=
  if trajectory.length ≤ window_size then trajectory
  else
    (List.range trajectory.length).map (fun i =>
      let s := i - window_size / 2
      let e := min trajectory.length (i + window_size / 2 + 1)
      meanV3 ((trajectory.drop s).take (e - s)))

/-- `stabilize_video_sequence`. -/
def stabilize_video_sequence (env : StabEnv) (frames : List Raster)
    (smoothing_window : Nat) : List Raster :=
  let n := frames.length
  if n < 3 then frames
  else
    match frames with
    | [] => frames
    | f0 :: _ =>
        if env.goodFeaturesCount f0 < 10 then frames
        else
          let h := f0.h
          let w := f0.w
          let trajectory := computeTrajectory env.track n
          let smoothed := smooth_trajectory trajectory smoothing_window
          let difference := List.zipWith v3sub smoothed trajectory
          f0 :: (List.range (n - 1)).map (fun i =>
            ⟨h, w, env.warpPx (frames.getD (i + 1) f0)
                     (difference.getD i v3zero) h w⟩)

/-- Claim C6: `stabilize_video_sequence` is a no-op on fewer than 3 frames,
and on every nonempty input — whichever path runs — the first output frame
is the first input frame, unchanged, as the alignment anchor. -/
theorem stabilize_noop_and_anchor (env : StabEnv) (frames : List Raster)
    (smoothing_window : Nat) :
    (frames.length < 3 →
      stabilize_video_sequence env frames smoothing_window = frames)
    ∧ (∀ f0 rest, frames = f0 :: rest →
        (stabilize_video_sequence env frames smoothing_window).head? = some f0) := by
  constructor
  · intro hlt
    simp [stabilize_video_sequence, hlt]
  · rintro f0 rest rfl
    simp only [stabilize_video_sequence]
    split_ifs <;> simp

/-- A concrete stabilization environment: plenty of features, every pair
tracked with a unit x-translation, pass-through warp content. -/
def demoStabEnv : StabEnv :=
  { goodFeaturesCount := fun _ => 200
    track := fun _ => .found (1, 0, 0)
    warpPx := fun r _ _ _ => r.px }

/-- Witness for C6: a 2-frame sequence is returned unchanged, and a 3-frame
sequence (which runs the full pass) keeps its first frame as anchor. -/
theorem stabilize_noop_and_anchor_witness :
    stabilize_video_sequence demoStabEnv [blackFrame, blackFrame] 30
      = [blackFrame, blackFrame]
    ∧ (stabilize_video_sequence demoStabEnv [blackFrame, blackFrame, blackFrame] 30).head?
      = some blackFrame :=
  ⟨(stabilize_noop_and_anchor demoStabEnv [blackFrame, blackFrame] 30).1
      (by simp),
   (stabilize_noop_and_anchor demoStabEnv [blackFrame, blackFrame, blackFrame] 30).2
      blackFrame [blackFrame, blackFrame] rfl⟩

/-! ## Frame-effect generator (`video_generation.py`, lines 42-125, C1)

`create_frame_effect` builds the frame list for one still image. Python
floats are modelled as ℝ: `np.linspace`, the cosine ease and the zoom
factors are translated term by term; `int(x)` on the nonnegative quantities
involved is `⌊x⌋`, and Python's `//` is `Int.fdiv`. The pixel content of the
OpenCV primitives (Gaussian blur, Lanczos resize, affine warp, the ORB/
homography stabilisation warp) is abstracted into `CV` oracles; every
dimension and crop-bound computation is translated exactly.

The zoom branch appends a frame only when the crop window satisfies
`0 <= y1 < y2 <= h and 0 <= x1 < x2 <= w` — otherwise the frame is
*silently skipped*. -/

/-- Content oracles for the OpenCV primitives of `create_frame_effect`. -/
structure CV where
  /-- `cv2.GaussianBlur` with the given (odd) kernel size. -/
  gaussianBlurPx : Raster → Int → (Nat → Nat → Pixel)
  /-- `cv2.resize(r, (w, h), interpolation=INTER_LANCZOS4)`. -/
  resizePx : Raster → Nat → Nat → (Nat → Nat → Pixel)
  /-- `cv2.warpAffine` with translation `(tx, ty)`, border reflected. -/
  warpAffinePx : Raster → Int × Int → Nat → Nat → (Nat → Nat → Pixel)
  /-- The ORB/BFMatcher/homography warp of the stabilisation block:
  `some` content when every step succeeds and `cv2.warpPerspective` runs,
  `none` on any of the failure paths (no descriptors, no matches, no
  homography, exception), where the frame passes through unchanged. -/
  orbWarpPx : Raster → Raster → Nat → Nat → Option (Nat → Nat → Pixel)

/-- `np.linspace(0, 1, n)`: `n` evenly spaced samples, `[0.0]` for `n = 1`,
endpoints included for `n ≥ 2`. -/
noncomputable def linspace (n : Nat) : List ℝ :=
  if n = 1 then [0]
  else (List.range n).map (fun (i : Nat) => (i : ℝ) / ((n : ℝ) - 1))

/-- The eased zoom-factor sequence
`1.0 + (0.3 if zoom_in else -0.3) * (1 - cos(x*pi/2))`. -/
noncomputable def zoom_range (n_frames : Nat) (zoom_in : Bool) : List ℝ :=
  (linspace n_frames).map
    (fun x => 1 + (if zoom_in then 0.3 else -0.3) * (1 - Real.cos (x * (Real.pi / 2))))

/-- `img_array[y1:y2, x1:x2]`. -/
def cropRaster (image : Raster) (y1 x1 nh nw : Nat) : Raster :=
  ⟨nh, nw, fun y x => image.px (y1 + y) (x1 + x)⟩

/-- `blur_size = int(max(1, min(3, abs(1-factor) * 5)))`. -/
noncomputable def blur_size (factor : ℝ) : Int :=
  ⌊max 1 (min 3 (|1 - factor| * 5))⌋

/-- One iteration of the zoom loop: crop bounds from the factor, the frame
emitted only when the bounds check `0 <= y1 < y2 <= h and 0 <= x1 < x2 <= w`
passes (`none` = the frame is silently skipped). -/
noncomputable def zoomFrame (cv : CV) (image : Raster) (h w : Nat)
    (factor : ℝ) : Option Raster :=
  let new_h : Int := ⌊(h : ℝ) / factor⌋
  let new_w : Int := ⌊(w : ℝ) / factor⌋
  let y1 : Int := Int.fdiv ((h : Int) - new_h) 2
  let x1 : Int := Int.fdiv ((w : Int) - new_w) 2
  let y2 : Int := y1 + new_h
  let x2 : Int := x1 + new_w
  if 0 ≤ y1 ∧ y1 < y2 ∧ y2 ≤ (h : Int) ∧ 0 ≤ x1 ∧ x1 < x2 ∧ x2 ≤ (w : Int) then
    let cropped := cropRaster image y1.toNat x1.toNat new_h.toNat new_w.toNat
    let blurred : Raster :=
      if factor = 1 then cropped
      else ⟨cropped.h, cropped.w,
            cv.gaussianBlurPx cropped (blur_size factor * 2 + 1)⟩
    some ⟨h, w, cv.resizePx blurred w h⟩
  else none

/-- The eased pan shift sequence `(1 - cos(x*pi/2)) * max_shift`, reversed
for the `"right"`/`"down"` directions. -/
noncomputable def pan_shifts (n_frames : Nat) (max_shift : Nat)
    (rev : Bool) : List ℝ :=
  let s := (linspace n_frames).map
    (fun x => (1 - Real.cos (x * (Real.pi / 2))) * (max_shift : ℝ))
  if rev then s.reverse else s

/-- One pan frame: `cv2.warpAffine` with translation `-int(shift)` along the
pan axis, output size `(w, h)`. -/
noncomputable def panFrame (cv : CV) (image : Raster) (h w : Nat)
    (horizontal : Bool) (shift : ℝ) : Raster :=
  let sh : Int := ⌊shift⌋
  ⟨h, w, cv.warpAffinePx image (if horizontal then (-sh, 0) else (0, -sh)) h w⟩

/-- The stabilisation loop over `frames[1:]`: each frame is warped towards
the previous (possibly already warped) frame when the ORB pipeline succeeds
and passes through unchanged otherwise; the emitted frame becomes `prev`. -/
def stabilizeLoop (cv : CV) (h w : Nat) : Raster → List Raster → List Raster
  | _, [] => []
  | prev, f :: fs =>
      let f' : Raster :=
        match cv.orbWarpPx prev f h w with
        | some pxf => ⟨h, w, pxf⟩
        | none => f
      f' :: stabilizeLoop cv h w f' fs

/-- The trailing `if len(frames) > 2` stabilisation block of
`create_frame_effect`: keep `frames[0]` and stabilise the tail. -/
def stabilizePass (cv : CV) (h w : Nat) (frames : List Raster) : List Raster :=
  if 2 < frames.length then
    match frames with
    | [] => frames
    | f0 :: rest => f0 :: stabilizeLoop cv h w f0 rest
  else frames

/-- The effect branches of `create_frame_effect` before stabilisation:
zoom filters through the bounds check; pan always emits; any other effect
type falls through with no frames. -/
noncomputable def effectFrames (cv : CV) (image : Raster) (n_frames : Nat)
    (effect_type : String) (zoom_in : Bool) (pan_direction : String) :
    List Raster :=
  let h := image.h
  let w := image.w
  if effect_type = "zoom" then
    (zoom_range n_frames zoom_in).filterMap (zoomFrame cv image h w)
  else if effect_type = "pan" then
    let horizontal := pan_direction == "right" || pan_direction == "left"
    let max_shift := if horizontal then w / 4 else h / 4
    let rev := pan_direction == "right" || pan_direction == "down"
    (pan_shifts n_frames max_shift rev).map (panFrame cv image h w horizontal)
  else []

/-- `create_frame_effect`: effect frames followed by the conditional
stabilisation pass. -/
noncomputable def create_frame_effect (cv : CV) (image : Raster)
    (n_frames : Nat) (effect_type : String) (zoom_in : Bool)
    (pan_direction : String) : List Raster :=
  stabilizePass cv image.h image.w
    (effectFrames cv image n_frames effect_type zoom_in pan_direction)

/-- Every `np.linspace(0, 1, n)` sample lies in `[0, 1]`. -/
theorem linspace_mem {n : Nat} {x : ℝ} (hx : x ∈ linspace n) : 0 ≤ x ∧ x ≤ 1 := by
  unfold linspace at hx
  by_cases h1 : n = 1
  · rw [if_pos h1] at hx
    simp only [List.mem_singleton] at hx
    simp [hx]
  · rw [if_neg h1] at hx
    rw [List.mem_map] at hx
    obtain ⟨i, hi, rfl⟩ := hx
    rw [List.mem_range] at hi
    have hn2 : 2 ≤ n := by omega
    have hd : (1 : ℝ) ≤ (n : ℝ) - 1 := by
      have h2 : (2 : ℝ) ≤ (n : ℝ) := by exact_mod_cast hn2
      linarith
    have hdpos : (0 : ℝ) < (n : ℝ) - 1 := by linarith
    refine ⟨div_nonneg (Nat.cast_nonneg i) (le_of_lt hdpos), ?_⟩
    rw [div_le_one hdpos]
    have hi' : (i : ℝ) + 1 ≤ (n : ℝ) := by exact_mod_cast hi
    linarith

/-- `np.linspace(0, 1, n)` has exactly `n` samples. -/
theorem linspace_length (n : Nat) : (linspace n).length = n := by
  unfold linspace
  by_cases h1 : n = 1
  · rw [if_pos h1, h1]
    rfl
  · rw [if_neg h1, List.length_map, List.length_range]

/-- The zoom-factor sequence has one factor per requested frame. -/
theorem zoom_range_length (n : Nat) (zoom_in : Bool) :
    (zoom_range n zoom_in).length = n := by
  simp [zoom_range, linspace_length]

/-- For zoom-in, every eased factor lies in `[1, 1.3]`. -/
theorem zoom_range_mem_zoom_in {n : Nat} {f : ℝ}
    (hf : f ∈ zoom_range n true) : 1 ≤ f ∧ f ≤ 13 / 10 := by
  unfold zoom_range at hf
  simp only [List.mem_map] at hf
  obtain ⟨x, hx, rfl⟩ := hf
  obtain ⟨hx0, hx1⟩ := linspace_mem hx
  have hpi : (0 : ℝ) < Real.pi / 2 := by positivity
  have harg0 : 0 ≤ x * (Real.pi / 2) := by positivity
  have harg1 : x * (Real.pi / 2) ≤ Real.pi / 2 := by
    calc x * (Real.pi / 2) ≤ 1 * (Real.pi / 2) :=
          mul_le_mul_of_nonneg_right hx1 (le_of_lt hpi)
      _ = Real.pi / 2 := one_mul _
  have hcos0 : 0 ≤ Real.cos (x * (Real.pi / 2)) :=
    Real.cos_nonneg_of_mem_Icc ⟨by linarith, harg1⟩
  have hcos1 : Real.cos (x * (Real.pi / 2)) ≤ 1 := Real.cos_le_one _
  constructor
  · simp only [if_true]
    norm_num
    linarith
  · simp only [if_true]
    norm_num
    linarith

/-- A frame is emitted for every zoom-in factor once the raster is at least
2×2: the crop bounds check always passes. -/
theorem zoomFrame_isSome_of_zoom_in (cv : CV) (image : Raster) {h w : Nat}
    {factor : ℝ} (hh : 2 ≤ h) (hw : 2 ≤ w) (hf1 : 1 ≤ factor)
    (hf2 : factor ≤ 13 / 10) : (zoomFrame cv image h w factor).isSome := by
  have hfpos : (0 : ℝ) < factor := lt_of_lt_of_le one_pos hf1
  have hnh1 : (1 : Int) ≤ ⌊(h : ℝ) / factor⌋ := by
    rw [Int.le_floor]
    push_cast
    rw [one_le_div hfpos]
    calc factor ≤ 13 / 10 := hf2
      _ ≤ 2 := by norm_num
      _ ≤ (h : ℝ) := by exact_mod_cast hh
  have hnh2 : ⌊(h : ℝ) / factor⌋ ≤ (h : Int) := by
    calc ⌊(h : ℝ) / factor⌋ ≤ ⌊(h : ℝ)⌋ :=
          Int.floor_le_floor (div_le_self (Nat.cast_nonneg h) hf1)
      _ = (h : Int) := Int.floor_natCast h
  have hnw1 : (1 : Int) ≤ ⌊(w : ℝ) / factor⌋ := by
    rw [Int.le_floor]
    push_cast
    rw [one_le_div hfpos]
    calc factor ≤ 13 / 10 := hf2
      _ ≤ 2 := by norm_num
      _ ≤ (w : ℝ) := by exact_mod_cast hw
  have hnw2 : ⌊(w : ℝ) / factor⌋ ≤ (w : Int) := by
    calc ⌊(w : ℝ) / factor⌋ ≤ ⌊(w : ℝ)⌋ :=
          Int.floor_le_floor (div_le_self (Nat.cast_nonneg w) hf1)
      _ = (w : Int) := Int.floor_natCast w
  have hy0 : 0 ≤ Int.fdiv ((h : Int) - ⌊(h : ℝ) / factor⌋) 2 :=
    Int.fdiv_nonneg (by omega) (by norm_num)
  have hyle : Int.fdiv ((h : Int) - ⌊(h : ℝ) / factor⌋) 2 ≤
      (h : Int) - ⌊(h : ℝ) / factor⌋ := by
    rw [Int.fdiv_eq_ediv _ (by norm_num)]
    exact Int.ediv_le_self _ (by omega)
  have hx0 : 0 ≤ Int.fdiv ((w : Int) - ⌊(w : ℝ) / factor⌋) 2 :=
    Int.fdiv_nonneg (by omega) (by norm_num)
  have hxle : Int.fdiv ((w : Int) - ⌊(w : ℝ) / factor⌋) 2 ≤
      (w : Int) - ⌊(w : ℝ) / factor⌋ := by
    rw [Int.fdiv_eq_ediv _ (by norm_num)]
    exact Int.ediv_le_self _ (by omega)
  have hcond : 0 ≤ Int.fdiv ((h : Int) - ⌊(h : ℝ) / factor⌋) 2 ∧
      Int.fdiv ((h : Int) - ⌊(h : ℝ) / factor⌋) 2 <
        Int.fdiv ((h : Int) - ⌊(h : ℝ) / factor⌋) 2 + ⌊(h : ℝ) / factor⌋ ∧
      Int.fdiv ((h : Int) - ⌊(h : ℝ) / factor⌋) 2 + ⌊(h : ℝ) / factor⌋ ≤ (h : Int) ∧
      0 ≤ Int.fdiv ((w : Int) - ⌊(w : ℝ) / factor⌋) 2 ∧
      Int.fdiv ((w : Int) - ⌊(w : ℝ) / factor⌋) 2 <
        Int.fdiv ((w : Int) - ⌊(w : ℝ) / factor⌋) 2 + ⌊(w : ℝ) / factor⌋ ∧
      Int.fdiv ((w : Int) - ⌊(w : ℝ) / factor⌋) 2 + ⌊(w : ℝ) / factor⌋ ≤ (w : Int) :=
    ⟨hy0, by omega, by omega, hx0, by omega, by omega⟩
  simp only [zoomFrame]
  rw [if_pos hcond]
  rfl

/-- Every frame the zoom branch emits has the input raster's dimensions. -/
theorem zoomFrame_dims (cv : CV) (image : Raster) {h w : Nat} {factor : ℝ}
    {fr : Raster} (hfr : zoomFrame cv image h w factor = some fr) :
    fr.h = h ∧ fr.w = w := by
  simp only [zoomFrame] at hfr
  split_ifs at hfr <;> cases hfr <;> exact ⟨rfl, rfl⟩

/-- `filterMap` over a list on which the function never fails keeps the
length. -/
theorem length_filterMap_of_isSome {α β : Type} (f : α → Option β) :
    ∀ L : List α, (∀ a ∈ L, (f a).isSome) →
      (L.filterMap f).length = L.length
  | [], _ => rfl
  | a :: L, hall => by
      obtain ⟨b, hb⟩ := Option.isSome_iff_exists.mp (hall a (List.mem_cons_self a L))
      rw [List.filterMap_cons_some hb]
      simp only [List.length_cons]
      rw [length_filterMap_of_isSome f L
        (fun x hx => hall x (List.mem_cons_of_mem a hx))]

/-- The pan shift sequence has one shift per requested frame. -/
theorem pan_shifts_length (n m : Nat) (rev : Bool) :
    (pan_shifts n m rev).length = n := by
  unfold pan_shifts
  cases rev <;> simp [linspace_length]

/-- The stabilisation loop emits one frame per input frame. -/
theorem stabilizeLoop_length (cv : CV) (h w : Nat) :
    ∀ (prev : Raster) (fs : List Raster),
      (stabilizeLoop cv h w prev fs).length = fs.length
  | _, [] => rfl
  | prev, f :: fs => by
      cases horb : cv.orbWarpPx prev f h w <;>
        simp only [stabilizeLoop, horb, List.length_cons] <;>
        rw [stabilizeLoop_length cv h w _ fs]

/-- The stabilisation loop preserves frame dimensions: a warped frame is
emitted at `(w, h)` and a fallback frame passes through unchanged. -/
theorem stabilizeLoop_dims (cv : CV) (h w : Nat) :
    ∀ (prev : Raster) (fs : List Raster),
      (∀ f ∈ fs, f.h = h ∧ f.w = w) →
      ∀ g ∈ stabilizeLoop cv h w prev fs, g.h = h ∧ g.w = w
  | _, [], _ => by simp [stabilizeLoop]
  | prev, f :: fs, hall => by
      intro g hg
      have hf : f.h = h ∧ f.w = w := hall f (List.mem_cons_self f fs)
      have htail : ∀ x ∈ fs, x.h = h ∧ x.w = w :=
        fun x hx => hall x (List.mem_cons_of_mem f hx)
      cases horb : cv.orbWarpPx prev f h w with
      | some pxf =>
          simp only [stabilizeLoop, horb] at hg
          rcases List.mem_cons.mp hg with rfl | hg'
          · exact ⟨rfl, rfl⟩
          · exact stabilizeLoop_dims cv h w _ fs htail g hg'
      | none =>
          simp only [stabilizeLoop, horb] at hg
          rcases List.mem_cons.mp hg with rfl | hg'
          · exact hf
          · exact stabilizeLoop_dims cv h w _ fs htail g hg'

/-- The stabilisation pass never changes the number of frames. -/
theorem stabilizePass_length (cv : CV) (h w : Nat) (frames : List Raster) :
    (stabilizePass cv h w frames).length = frames.length := by
  cases frames with
  | nil => simp [stabilizePass]
  | cons f0 rest =>
      unfold stabilizePass
      split_ifs with hlen
      · simp [stabilizeLoop_length]
      · rfl

/-- The stabilisation pass preserves frame dimensions. -/
theorem stabilizePass_dims (cv : CV) (h w : Nat) (frames : List Raster)
    (hall : ∀ f ∈ frames, f.h = h ∧ f.w = w) :
    ∀ g ∈ stabilizePass cv h w frames, g.h = h ∧ g.w = w := by
  cases frames with
  | nil => simp [stabilizePass]
  | cons f0 rest =>
      unfold stabilizePass
      split_ifs with hlen
      · intro g hg
        rcases List.mem_cons.mp hg with rfl | hg'
        · exact hall g (List.mem_cons_self g rest)
        · exact stabilizeLoop_dims cv h w f0 rest
            (fun x hx => hall x (List.mem_cons_of_mem f0 hx)) g hg'
      · exact hall

/-- Every frame the effect branches emit has the input dimensions. -/
theorem effectFrames_dims (cv : CV) (image : Raster) (n : Nat)
    (effect_type : String) (zoom_in : Bool) (pan_direction : String) :
    ∀ f ∈ effectFrames cv image n effect_type zoom_in pan_direction,
      f.h = image.h ∧ f.w = image.w := by
  intro f hf
  simp only [effectFrames] at hf
  split_ifs at hf
  · rw [List.mem_filterMap] at hf
    obtain ⟨a, -, ha⟩ := hf
    exact zoomFrame_dims cv image ha
  · rw [List.mem_map] at hf
    obtain ⟨s, -, rfl⟩ := hf
    exact ⟨rfl, rfl⟩
  · rw [List.mem_map] at hf
    obtain ⟨s, -, rfl⟩ := hf
    exact ⟨rfl, rfl⟩
  · simp at hf

/-- The pan branch emits exactly one frame per requested frame. -/
theorem effectFrames_pan_length (cv : CV) (image : Raster) (n : Nat)
    (zoom_in : Bool) (pan_direction : String) :
    (effectFrames cv image n "pan" zoom_in pan_direction).length = n := by
  simp [effectFrames, pan_shifts_length]

/-- The zoom branch never emits more frames than requested. -/
theorem effectFrames_zoom_length_le (cv : CV) (image : Raster) (n : Nat)
    (zoom_in : Bool) (pan_direction : String) :
    (effectFrames cv image n "zoom" zoom_in pan_direction).length ≤ n := by
  have hunfold : effectFrames cv image n "zoom" zoom_in pan_direction =
      (zoom_range n zoom_in).filterMap (zoomFrame cv image image.h image.w) := by
    simp [effectFrames]
  rw [hunfold]
  calc ((zoom_range n zoom_in).filterMap
          (zoomFrame cv image image.h image.w)).length
      ≤ (zoom_range n zoom_in).length := List.length_filterMap_le _ _
    _ = n := zoom_range_length n zoom_in

/-- On a raster at least 2×2, the zoom-in branch emits exactly the requested
number of frames: every factor's bounds check passes. -/
theorem effectFrames_zoom_in_length (cv : CV) (image : Raster) (n : Nat)
    (pan_direction : String) (hh : 2 ≤ image.h) (hw : 2 ≤ image.w) :
    (effectFrames cv image n "zoom" true pan_direction).length = n := by
  have hunfold : effectFrames cv image n "zoom" true pan_direction =
      (zoom_range n true).filterMap (zoomFrame cv image image.h image.w) := by
    simp [effectFrames]
  rw [hunfold]
  rw [length_filterMap_of_isSome]
  · exact zoom_range_length n true
  · intro a ha
    obtain ⟨h1, h2⟩ := zoom_range_mem_zoom_in ha
    exact zoomFrame_isSome_of_zoom_in cv image hh hw h1 h2

/-- Claim C1 (amended): every frame `create_frame_effect` returns has the
input raster's width and height; the pan effect returns exactly the
requested number of frames for every direction; the zoom effect never
returns more than requested, and returns exactly the requested number for
zoom-in on any raster of at least 2×2. (Zoom-out is excluded: factors below
1 make the crop window exceed the raster, and those frames are silently
skipped — see the counterexample.) -/
theorem create_frame_effect_frames (cv : CV) (image : Raster) (n : Nat)
    (zoom_in : Bool) (pan_direction : String) :
    (∀ f ∈ create_frame_effect cv image n "pan" zoom_in pan_direction,
        f.h = image.h ∧ f.w = image.w)
    ∧ (∀ f ∈ create_frame_effect cv image n "zoom" zoom_in pan_direction,
        f.h = image.h ∧ f.w = image.w)
    ∧ (create_frame_effect cv image n "pan" zoom_in pan_direction).length = n
    ∧ (create_frame_effect cv image n "zoom" zoom_in pan_direction).length ≤ n
    ∧ (zoom_in = true → 2 ≤ image.h → 2 ≤ image.w →
        (create_frame_effect cv image n "zoom" zoom_in pan_direction).length = n) := by
  refine ⟨?_, ?_, ?_, ?_, ?_⟩
  · exact fun f hf => stabilizePass_dims cv image.h image.w _
      (effectFrames_dims cv image n "pan" zoom_in pan_direction) f hf
  · exact fun f hf => stabilizePass_dims cv image.h image.w _
      (effectFrames_dims cv image n "zoom" zoom_in pan_direction) f hf
  · unfold create_frame_effect
    rw [stabilizePass_length]
    exact effectFrames_pan_length cv image n zoom_in pan_direction
  · unfold create_frame_effect
    rw [stabilizePass_length]
    exact effectFrames_zoom_length_le cv image n zoom_in pan_direction
  · rintro rfl hh hw
    unfold create_frame_effect
    rw [stabilizePass_length]
    exact effectFrames_zoom_in_length cv image n pan_direction hh hw

/-- A concrete content environment: pass-through pixel functions, with the
ORB stabilisation pipeline always on its fallback path. -/
def demoCV : CV :=
  { gaussianBlurPx := fun r _ => r.px
    resizePx := fun r _ _ => r.px
    warpAffinePx := fun r _ _ _ => r.px
    orbWarpPx := fun _ _ _ _ => none }

/-- A 4×4 uniform gray test raster. -/
def gray4 : Raster := ⟨4, 4, fun _ _ => (128, 128, 128)⟩

/-- Witness for C1: pan and zoom-in on the 4×4 raster both yield exactly the
5 requested frames. -/
theorem create_frame_effect_frames_witness :
    (create_frame_effect demoCV gray4 5 "pan" true "right").length = 5
    ∧ (create_frame_effect demoCV gray4 5 "zoom" true "right").length = 5 :=
  ⟨(create_frame_effect_frames demoCV gray4 5 true "right").2.2.1,
   (create_frame_effect_frames demoCV gray4 5 true "right").2.2.2.2 rfl
     (by norm_num [gray4]) (by norm_num [gray4])⟩

/-- Counterexample to C1 as stated: zoom-out (`effect_type="zoom"`,
`zoom_in=False`) on a 4×4 raster with `n_frames = 2` returns only **1**
frame. The eased factor sequence is `[1.0, 0.7]`; at factor `0.7` the crop
height `int(4 / 0.7) = 5` exceeds the raster, the bounds check
`0 <= y1 < y2 <= h` fails (`y1 = (4 - 5) // 2 = -1`), and the frame is
silently skipped. -/
theorem create_frame_effect_zoom_out_counterexample :
    (create_frame_effect demoCV gray4 2 "zoom" false "right").length = 1 := by
  have h4 : ((4 : ℕ) : ℝ) = (4 : ℝ) := by norm_num
  have hlin : linspace 2 = [0, 1] := by
    unfold linspace
    rw [if_neg (by norm_num)]
    rw [show List.range 2 = [0, 1] from rfl]
    norm_num
  have hzr : zoom_range 2 false = [1, 7 / 10] := by
    unfold zoom_range
    rw [hlin]
    simp [Real.cos_pi_div_two]
    norm_num
  have hfl1 : ⌊((4 : ℕ) : ℝ) / (1 : ℝ)⌋ = (4 : ℤ) := by
    rw [h4]
    norm_num
  have hfl7 : ⌊((4 : ℕ) : ℝ) / (7 / 10 : ℝ)⌋ = (5 : ℤ) := by
    rw [h4, Int.floor_eq_iff]
    norm_num
  have hz1 : (zoomFrame demoCV gray4 4 4 1).isSome := by
    simp only [zoomFrame, hfl1]
    split_ifs with h1 <;>
      first
        | rfl
        | (exfalso; revert h1; decide)
  have hz7 : zoomFrame demoCV gray4 4 4 (7 / 10 : ℝ) = none := by
    simp only [zoomFrame, hfl7]
    split_ifs with h1 _h2 <;>
      first
        | rfl
        | (exfalso; revert h1; decide)
  have hunfold : effectFrames demoCV gray4 2 "zoom" false "right" =
      (zoom_range 2 false).filterMap (zoomFrame demoCV gray4 gray4.h gray4.w) := by
    simp [effectFrames]
  have hgh : gray4.h = 4 := rfl
  have hgw : gray4.w = 4 := rfl
  obtain ⟨fr, hfr⟩ := Option.isSome_iff_exists.mp hz1
  unfold create_frame_effect
  rw [stabilizePass_length, hunfold, hgh, hgw, hzr,
    List.filterMap_cons_some hfr, List.filterMap_cons_none hz7]
  rfl
